import Mathlib

/-
Verification of the hum-to-notes transcription pipeline.

Shallow embedding conventions:
* JavaScript numbers that only ever undergo field arithmetic and comparisons
  (times, durations, BPM, clarity) are modelled as exact rationals.
* Quantities produced by the logarithm/power based pitch conversions
  (frequencies and the MIDI mapping) are modelled as real numbers, with
  Math.log2 and Math.pow embedded as Real.logb 2 and real exponentiation.
* JavaScript Math.round is floor (x + 1/2), which is exactly the rounding
  convention of round in Mathlib; Math.floor is Int.floor; the JS remainder
  operator has the sign of the dividend, which is Int.tmod; Math.floor on a
  quotient of integers is Int.fdiv.
* Class instances become explicit state records; every method takes the
  state and returns the updated state together with its result.
-/

/-- src/lib/types.ts: per-frame stabilized pitch observation.
The clarity is an RMS amplitude in [0,1], a plain number, hence rational. -/
structure PitchData where
  frequency : Option ℝ
  clarity : ℚ
  timestamp : ℚ

/-- src/lib/types.ts: result of NoteQuantizer.frequencyToNoteInfo. -/
structure NoteInfo where
  note : String
  octave : ℤ
  midiNumber : ℤ
  cents : ℤ

/-- src/lib/types.ts: a finalized note event. -/
structure DetectedNote where
  note : String
  octave : ℤ
  midiNumber : ℤ
  startTime : ℚ
  duration : ℚ
  frequency : ℝ

/-- src/lib/notation/TempoQuantizer.ts: QuantizationSettings. -/
structure QuantizationSettings where
  bpm : ℚ
  subdivision : ℚ
  swingAmount : ℚ

namespace TempoQuantizer

/-- DEFAULT_SETTINGS of TempoQuantizer.ts. -/
def DEFAULT_SETTINGS : QuantizationSettings := { bpm := 120, subdivision := 8, swingAmount := 0 }

/-- The anonymous cluster record of clusterDurations. -/
structure DurationCluster where
  center : ℚ
  count : ℕ
  sum : ℚ

/-- One step of the find-first-matching-cluster-or-push loop body of
clusterDurations: the first cluster whose center is within the 0.15s
tolerance is updated in place, otherwise a singleton cluster is pushed
at the end. -/
def addToClusters : List DurationCluster → ℚ → List DurationCluster
  | [], d => [{ center := d, count := 1, sum := d }]
  | c :: cs, d =>
    if |c.center - d| < 3/20 then
      { center := (c.sum + d) / (c.count + 1), count := c.count + 1, sum := c.sum + d } :: cs
    else
      c :: addToClusters cs d

/-- clusterDurations: sort ascending (JS sort (a,b) => a-b, a stable sort,
embedded as insertion sort), fold the clustering loop, then sort the
clusters by count descending (stable). -/
def clusterDurations (durations : List ℚ) : List DurationCluster :=
  let sorted := List.insertionSort (fun a b => a ≤ b) durations
  let clusters := sorted.foldl addToClusters []
  List.insertionSort (fun a b => b.count ≤ a.count) clusters

/-- detectTempo of TempoQuantizer.ts.  clusters[0]?.center || 0.5 is embedded
by the match below: a missing head gives 0.5, and a falsy (zero) center also
gives 0.5. -/
def detectTempo (notes : List DetectedNote) : ℚ :=
  if notes.length < 2 then DEFAULT_SETTINGS.bpm
  else
    let durations := notes.map (fun n => n.duration)
    let shortDurations := durations.filter (fun d => decide (1/10 < d ∧ d < 2))
    if shortDurations.length = 0 then DEFAULT_SETTINGS.bpm
    else
      let clusters := clusterDurations shortDurations
      let dominantDuration :=
        match clusters.head? with
        | none => 1/2
        | some c => if c.center = 0 then 1/2 else c.center
      let bpm0 := 60 / dominantDuration
      let bpm1 := if 180 < bpm0 then bpm0 / 2 else bpm0
      let bpm2 := if bpm1 < 60 then bpm1 * 2 else bpm1
      ((max 60 (min 180 (round bpm2)) : ℤ) : ℚ)

/-- The grid unit of quantize: beatDuration / (subdivision / 4)
with beatDuration = 60 / bpm. -/
def gridSize (s : QuantizationSettings) : ℚ :=
  (60 / s.bpm) / (s.subdivision / 4)

/-- The body of the notes.map callback in quantize, for one note and the
following note (if any); g is the grid unit and first the first note's
original start time. -/
def quantizeNote (g first : ℚ) (note : DetectedNote) (next : Option DetectedNote) :
    DetectedNote :=
  let relativeStart := note.startTime - first
  let quantizedStart := ((round (relativeStart / g) : ℤ) : ℚ) * g
  let gridUnits : ℤ := max 1 (round (note.duration / g))
  let quantizedDuration := (gridUnits : ℚ) * g
  let finalDuration :=
    match next with
    | none => quantizedDuration
    | some nextNote =>
      let nextRelativeStart := nextNote.startTime - first
      let nextQuantizedStart := ((round (nextRelativeStart / g) : ℤ) : ℚ) * g
      let maxDuration := nextQuantizedStart - quantizedStart - 1/100
      if 0 < maxDuration ∧ maxDuration < quantizedDuration then
        max g (((⌊maxDuration / g⌋ : ℤ) : ℚ) * g)
      else quantizedDuration
  { note with startTime := quantizedStart, duration := finalDuration }

/-- Maps f over a list, also passing each element's successor, mirroring the
indexed access notes[index + 1] inside notes.map. -/
def mapWithNext (f : α → Option α → β) : List α → List β
  | [] => []
  | a :: rest => f a rest.head? :: mapWithNext f rest

/-- quantize of TempoQuantizer.ts.  Returns the updated settings (the
autoDetectTempo branch overwrites settings.bpm) together with the new
note list. -/
def quantize (s : QuantizationSettings) (notes : List DetectedNote)
    (autoDetectTempo : Bool) : QuantizationSettings × List DetectedNote :=
  match notes with
  | [] => (s, [])
  | n0 :: _ =>
    let s1 := if autoDetectTempo then { s with bpm := detectTempo notes } else s
    let g := gridSize s1
    let firstNoteStart := n0.startTime
    (s1, mapWithNext (quantizeNote g firstNoteStart) notes)

/-- getBpm of TempoQuantizer.ts. -/
def getBpm (s : QuantizationSettings) : ℚ := s.bpm

/-- setBpm of TempoQuantizer.ts: clamps to [40, 240]. -/
def setBpm (s : QuantizationSettings) (bpm : ℚ) : QuantizationSettings :=
  { s with bpm := max 40 (min 240 bpm) }

/-- setSubdivision of TempoQuantizer.ts. -/
def setSubdivision (s : QuantizationSettings) (subdivision : ℚ) : QuantizationSettings :=
  { s with subdivision := subdivision }

end TempoQuantizer

section TempoQuantizerSanity

open TempoQuantizer

example : detectTempo [] = 120 := by norm_num [detectTempo, DEFAULT_SETTINGS]

example :
    detectTempo
      [{ note := "A", octave := 4, midiNumber := 69, startTime := 0, duration := 1,
         frequency := 440 },
       { note := "A", octave := 4, midiNumber := 69, startTime := 1, duration := 1,
         frequency := 440 }] = 60 := by
  norm_num [detectTempo, DEFAULT_SETTINGS, clusterDurations, addToClusters,
    List.insertionSort, List.orderedInsert, round_eq]

example :
    (quantize { bpm := 120, subdivision := 8, swingAmount := 0 }
      [{ note := "A", octave := 4, midiNumber := 69, startTime := 3/10, duration := 3/5,
         frequency := 440 }] false).2 =
    [{ note := "A", octave := 4, midiNumber := 69, startTime := 0, duration := 1/2,
       frequency := 440 }] := by
  norm_num [quantize, gridSize, mapWithNext, quantizeNote, round_eq]

end TempoQuantizerSanity

/-- The AbcGenerator class state: its bpm field (default 120).  The
defaultNoteLength field is the readonly constant 8. -/
structure AbcGenerator where
  bpm : ℚ

namespace AbcGenerator

/-- defaultNoteLength, the readonly 1/8-note base. -/
def defaultNoteLength : ℕ := 8

/-- The ABC_NOTES record mapping note names to ABC pitch tokens. -/
def ABC_NOTES : List (String × String) :=
  [("C", "C"), ("C#", "^C"), ("D", "D"), ("D#", "^D"), ("E", "E"), ("F", "F"),
   ("F#", "^F"), ("G", "G"), ("G#", "^G"), ("A", "A"), ("A#", "^A"), ("B", "B")]

/-- ABC_NOTES[name] || name: record lookup with fallback to the raw name when
the key is absent (all stored values are non-empty, hence truthy). -/
def abcNoteLookup (name : String) : String :=
  match ABC_NOTES.find? (fun p => p.1 == name) with
  | some p => p.2
  | none => name

/-- setBpm of AbcGenerator: stores the value unclamped. -/
def setBpm (g : AbcGenerator) (bpm : ℚ) : AbcGenerator := { g with bpm := bpm }

/-- getBpm of AbcGenerator. -/
def getBpm (g : AbcGenerator) : ℚ := g.bpm

/-- Rendering of a JS number in a template literal; every BPM the app
produces is integer-valued, and an integer-valued number prints as its
integer part. -/
def numToString (q : ℚ) : String :=
  if q.den = 1 then toString q.num else toString q.num ++ "/" ++ toString q.den

/-- generateHeader of AbcGenerator: the fixed preamble with the tempo
marker interpolated. -/
def generateHeader (g : AbcGenerator) : String :=
  "X:1\nT:Recorded Melody\nM:4/4\nL:1/8\nQ:1/4=" ++ numToString g.bpm ++ "\nK:C\n"

/-- getDurationSuffix of AbcGenerator: duration-bucket suffix relative to an
eighth note at the stored bpm. -/
def getDurationSuffix (g : AbcGenerator) (duration : ℚ) : String :=
  let eighthNoteDuration := 60 / g.bpm / 2
  let relativeLength := duration / eighthNoteDuration
  if relativeLength ≤ 3/4 then ""
  else if relativeLength ≤ 3/2 then ""
  else if relativeLength ≤ 3 then "2"
  else if relativeLength ≤ 6 then "4"
  else "8"

/-- durationToEighths of AbcGenerator: the duration-to-grid-units bucket
used for bar placement. -/
def durationToEighths (g : AbcGenerator) (duration : ℚ) : ℕ :=
  let eighthNoteDuration := 60 / g.bpm / 2
  let relativeLength := duration / eighthNoteDuration
  if relativeLength ≤ 3/2 then 1
  else if relativeLength ≤ 3 then 2
  else if relativeLength ≤ 6 then 4
  else 8

/-- baseNote.replace(/([A-G])/, m => m.toLowerCase()): lowercases the first
character in the A-G range (the regex has no global flag). -/
def lowerFirstAG : List Char → List Char
  | [] => []
  | c :: cs => if 'A' ≤ c ∧ c ≤ 'G' then c.toLower :: cs else c :: lowerFirstAG cs

/-- The apostrophe character used for upward octave marks. -/
def octaveUpMark : Char := Char.ofNat 39

/-- noteToAbc of AbcGenerator: ABC pitch token with octave marks and the
duration suffix. -/
def noteToAbc (g : AbcGenerator) (note : DetectedNote) : String :=
  let baseNote := abcNoteLookup note.note
  let noteStr :=
    if 5 ≤ note.octave then
      let lowered := String.mk (lowerFirstAG baseNote.data)
      if 5 < note.octave then
        lowered ++ String.mk (List.replicate (note.octave - 5).toNat octaveUpMark)
      else lowered
    else if note.octave < 4 then
      baseNote ++ String.mk (List.replicate (4 - note.octave).toNat ',')
    else baseNote
  noteStr ++ getDurationSuffix g note.duration

/-- One iteration of the for-loop of generateBody, acting on the
accumulated token list and the running measure fill (in eighth units). -/
def generateBodyStep (g : AbcGenerator) (acc : List String × ℕ) (note : DetectedNote) :
    List String × ℕ :=
  let abcNotes := acc.1 ++ [noteToAbc g note]
  let durationInEighths := durationToEighths g note.duration
  let currentMeasureDuration := acc.2 + durationInEighths
  if defaultNoteLength ≤ currentMeasureDuration then
    (abcNotes ++ ["|"], currentMeasureDuration % defaultNoteLength)
  else (abcNotes, currentMeasureDuration)

/-- generateBody of AbcGenerator. -/
def generateBody (g : AbcGenerator) (notes : List DetectedNote) : String :=
  let folded := notes.foldl (generateBodyStep g) ([], 0)
  let body := String.intercalate " " folded.1
  if body.endsWith "|" then body ++ "|" else body ++ " |]"

/-- generate of AbcGenerator: empty input gives the empty string, otherwise
header plus body. -/
def generate (g : AbcGenerator) (notes : List DetectedNote) : String :=
  if notes.isEmpty then "" else generateHeader g ++ generateBody g notes

end AbcGenerator

namespace PianoRoll

/-- getAbcPlaybackDuration of PianoRoll.svelte: re-derives the per-note
eighth-unit buckets (matching AbcGenerator.durationToEighths) and converts
the total back to seconds. -/
def getAbcPlaybackDuration (notes : List DetectedNote) (bpm : ℚ) : ℚ :=
  let eighthNoteDuration := 60 / bpm / 2
  let totalEighths :=
    notes.foldl
      (fun acc note =>
        let relativeLength := note.duration / eighthNoteDuration
        acc + (if relativeLength ≤ 3/2 then (1:ℚ)
               else if relativeLength ≤ 3 then 2
               else if relativeLength ≤ 6 then 4
               else 8)) 0
  totalEighths * eighthNoteDuration

end PianoRoll

/-- The slice of the AudioState store (audioState.svelte.ts) that the
setBpm / toggleQuantize / normalizeNoteTimes operations read and write.
The recording and playback machinery is out of scope (external
collaborators).  The abcText field is the store's abcNotation string. -/
structure AudioState where
  detectedBpm : ℚ
  quantizeEnabled : Bool
  rawNotes : List DetectedNote
  detectedNotes : List DetectedNote
  abcText : String
  error : Option String
  tempoQuantizer : QuantizationSettings
  abcGenerator : AbcGenerator

namespace AudioState

/-- normalizeNoteTimes of AudioState: shift every start time by the first
note's original start, keeping durations. -/
def normalizeNoteTimes (notes : List DetectedNote) : List DetectedNote :=
  match notes with
  | [] => []
  | n0 :: _ => notes.map (fun note => { note with startTime := note.startTime - n0.startTime })

/-- setBpm of AudioState: stores the raw value in detectedBpm, clamps only
the TempoQuantizer copy, and (when quantized notes exist) re-quantizes with
the clamped BPM but hands the raw detectedBpm to the AbcGenerator. -/
def setBpm (st : AudioState) (bpm : ℚ) : AudioState :=
  let st1 := { st with detectedBpm := bpm,
                       tempoQuantizer := TempoQuantizer.setBpm st.tempoQuantizer bpm }
  if 0 < st1.rawNotes.length ∧ st1.quantizeEnabled then
    let q := TempoQuantizer.quantize st1.tempoQuantizer st1.rawNotes false
    let gen := AbcGenerator.setBpm st1.abcGenerator st1.detectedBpm
    { st1 with tempoQuantizer := q.1, detectedNotes := q.2, abcGenerator := gen,
               abcText := AbcGenerator.generate gen q.2 }
  else st1

/-- toggleQuantize of AudioState. -/
def toggleQuantize (st : AudioState) : AudioState :=
  let st1 := { st with quantizeEnabled := !st.quantizeEnabled }
  if 0 < st1.rawNotes.length then
    let q :=
      if st1.quantizeEnabled then TempoQuantizer.quantize st1.tempoQuantizer st1.rawNotes false
      else (st1.tempoQuantizer, normalizeNoteTimes st1.rawNotes)
    let gen := AbcGenerator.setBpm st1.abcGenerator st1.detectedBpm
    { st1 with tempoQuantizer := q.1, detectedNotes := q.2, abcGenerator := gen,
               abcText := AbcGenerator.generate gen q.2 }
  else st1

end AudioState

namespace PitchDetector

/-- The mutable state of the PitchDetector class.  The raw YIN frequency
estimator and the audio buffer are external collaborators: detect below
therefore receives the raw frequency (detectPitch output) and the clarity
(calculateClarity output, an RMS amplitude) as per-frame inputs. -/
structure State where
  pitchHistory : List (Option ℝ)
  smoothedFrequency : Option ℝ
  currentMidiNote : Option ℤ

/-- The state of a freshly constructed (or reset) PitchDetector. -/
def init : State := { pitchHistory := [], smoothedFrequency := none, currentMidiNote := none }

/-- frequencyToMidi of PitchDetector: Math.round(12 * Math.log2(f / 440) + 69). -/
noncomputable def frequencyToMidi (frequency : ℝ) : ℤ :=
  round (12 * Real.logb 2 (frequency / 440) + 69)

/-- midiToFrequency of PitchDetector: 440 * Math.pow(2, (midi - 69) / 12). -/
noncomputable def midiToFrequency (midi : ℤ) : ℝ :=
  440 * (2:ℝ) ^ (((midi : ℝ) - 69) / 12)

/-- countConfirmedPitches of PitchDetector: how many non-null history
entries round to the target MIDI note. -/
noncomputable def countConfirmedPitches (history : List (Option ℝ)) (targetMidi : ℤ) : ℕ :=
  (history.filter (fun p =>
    match p with
    | none => false
    | some q => decide (frequencyToMidi q = targetMidi))).length

/-- JS Array.prototype.sort((a, b) => a - b) on the valid pitches: a stable
ascending sort, embedded as insertion sort. -/
noncomputable def sortPitches (l : List ℝ) : List ℝ :=
  List.insertionSort (fun a b => a ≤ b) l

/-- In-range list indexing of getMedianPitch (JS a[i]; the code only indexes
in bounds, so the default is never read). -/
noncomputable def nthPitch : List ℝ → ℕ → ℝ
  | [], _ => 0
  | x :: _, 0 => x
  | _ :: xs, n + 1 => nthPitch xs n

/-- getMedianPitch of PitchDetector: median of the non-null history entries,
falling back to the most recent entry when fewer than 3 are present. -/
noncomputable def getMedianPitch (history : List (Option ℝ)) : Option ℝ :=
  let validPitches := history.reduceOption
  if validPitches.length < 3 then
    if 0 < validPitches.length then some (nthPitch validPitches (validPitches.length - 1))
    else none
  else
    let sorted := sortPitches validPitches
    let mid := sorted.length / 2
    if sorted.length % 2 = 0 then
      some ((nthPitch sorted (mid - 1) + nthPitch sorted mid) / 2)
    else some (nthPitch sorted mid)

/-- pitchHistory.filter(p => p === null).length. -/
def nullCount (history : List (Option ℝ)) : ℕ :=
  (history.filter (fun p => p.isNone)).length

/-- The else-branch of the stabilization step in detect: when at least 6
history entries are null, clear the lock and smoothed frequency. -/
def silenceReset (s : State) (history : List (Option ℝ)) : Option ℝ × Option ℤ :=
  if 6 ≤ nullCount history then (none, none)
  else (s.smoothedFrequency, s.currentMidiNote)

/-- detect of PitchDetector.  Inputs: the raw YIN output for this frame and
the frame's clarity and timestamp.  Returns the updated state and the
PitchData produced.  The non-null assertion this.smoothedFrequency! of the
same-note smoothing branch is embedded as .getD 0. -/
noncomputable def detect (s : State) (rawFrequency : Option ℝ) (clarity : ℚ)
    (timestamp : ℚ) : State × PitchData :=
  let validFrequency : Option ℝ :=
    match rawFrequency with
    | some f => if 80 ≤ f ∧ f ≤ 1000 then some f else none
    | none => none
  let pushed := s.pitchHistory ++ [validFrequency]
  let history := if 12 < pushed.length then pushed.tail else pushed
  let medianFrequency := getMedianPitch history
  let stepped : Option ℝ × Option ℤ :=
    match medianFrequency with
    | some mf =>
      if 1/100 < clarity then
        let newMidiNote := frequencyToMidi mf
        match s.currentMidiNote with
        | none =>
          if 5 ≤ countConfirmedPitches history newMidiNote then
            (some (midiToFrequency newMidiNote), some newMidiNote)
          else (s.smoothedFrequency, s.currentMidiNote)
        | some cur =>
          let semitoneDistance := |newMidiNote - cur|
          if semitoneDistance = 0 then
            (some ((3/20 : ℝ) * mf + (1 - 3/20) * (s.smoothedFrequency.getD 0)), some cur)
          else if 2 ≤ semitoneDistance then
            if 6 ≤ countConfirmedPitches history newMidiNote then
              (some (midiToFrequency newMidiNote), some newMidiNote)
            else (s.smoothedFrequency, s.currentMidiNote)
          else
            if 8 ≤ countConfirmedPitches history newMidiNote then
              (some (midiToFrequency newMidiNote), some newMidiNote)
            else (s.smoothedFrequency, s.currentMidiNote)
      else silenceReset s history
    | none => silenceReset s history
  ({ pitchHistory := history, smoothedFrequency := stepped.1, currentMidiNote := stepped.2 },
   { frequency := stepped.1, clarity := clarity, timestamp := timestamp })

/-- Iterated detect over a list of (rawFrequency, clarity, timestamp)
frames, collecting the per-frame PitchData outputs. -/
noncomputable def detectRun (s : State) : List (Option ℝ × ℚ × ℚ) → State × List PitchData
  | [] => (s, [])
  | f :: fs =>
    let step := detect s f.1 f.2.1 f.2.2
    let rest := detectRun step.1 fs
    (rest.1, step.2 :: rest.2)

end PitchDetector

namespace NoteQuantizer

/-- NOTE_NAMES of NoteQuantizer.ts: the twelve pitch-class names in sharp
spelling, C first. -/
def NOTE_NAMES : List String :=
  ["C", "C#", "D", "D#", "E", "F"] ++ ["F#", "G", "G#", "A", "A#", "B"]

/-- The mutable state of the NoteQuantizer class. -/
structure State where
  currentNoteStart : Option ℚ
  currentMidi : Option ℤ
  frequencySum : ℝ
  frequencyCount : ℕ
  pendingMidi : Option ℤ
  pendingCount : ℕ
  silenceCount : ℕ

/-- The state of a freshly constructed (or reset) NoteQuantizer. -/
def init : State :=
  { currentNoteStart := none, currentMidi := none, frequencySum := 0, frequencyCount := 0,
    pendingMidi := none, pendingCount := 0, silenceCount := 0 }

/-- frequencyToNoteInfo of NoteQuantizer: MIDI number, cents deviation, note
name and octave from a frequency.  JS % has the sign of the dividend
(Int.tmod) and Math.floor of an integer quotient is Int.fdiv; the list
access NOTE_NAMES[noteIndex] is always in bounds since
((m % 12) + 12) % 12 lies in [0, 12). -/
noncomputable def frequencyToNoteInfo (frequency : ℝ) : NoteInfo :=
  let midiFloat := 12 * Real.logb 2 (frequency / 440) + 69
  let midiNumber := round midiFloat
  let cents := round ((midiFloat - (midiNumber : ℝ)) * 100)
  let noteIndex := ((midiNumber.tmod 12) + 12).tmod 12
  let octave := midiNumber.fdiv 12 - 1
  { note := NOTE_NAMES.getD noteIndex.toNat "", octave := octave,
    midiNumber := midiNumber, cents := cents }

/-- resetTracking of NoteQuantizer. -/
def resetTracking (s : State) : State :=
  { s with currentNoteStart := none, currentMidi := none, frequencySum := 0,
           frequencyCount := 0 }

/-- finishCurrentNote of NoteQuantizer: finalize the active note at endTime,
discarding it when shorter than the 0.18s minimum; the representative
frequency is the mean of the accumulated exact-match frequencies, falling
back to the equal-tempered frequency of the active MIDI number when none
were accumulated. -/
noncomputable def finishCurrentNote (s : State) (endTime : ℚ) : State × Option DetectedNote :=
  match s.currentNoteStart, s.currentMidi with
  | some start, some midi =>
    let duration := endTime - start
    if duration < 9/50 then (resetTracking s, none)
    else
      let avgFrequency : ℝ :=
        if 0 < s.frequencyCount then s.frequencySum / (s.frequencyCount : ℝ)
        else 440 * (2:ℝ) ^ (((midi : ℝ) - 69) / 12)
      let noteInfo := frequencyToNoteInfo avgFrequency
      (resetTracking s,
       some { note := noteInfo.note, octave := noteInfo.octave,
              midiNumber := noteInfo.midiNumber, startTime := start,
              duration := duration, frequency := avgFrequency })
  | _, _ => (resetTracking s, none)

/-- Lines 107-123 of processFrame: open the first note once its pending
candidate is confirmed, otherwise start tracking a pending candidate. -/
noncomputable def afterPending (s : State) (noteInfo : NoteInfo) (frequency : ℝ)
    (timestamp : ℚ) : State × Option DetectedNote :=
  if s.currentMidi = none ∧ 5 ≤ s.pendingCount then
    ({ s with currentNoteStart := some timestamp, currentMidi := some noteInfo.midiNumber,
              frequencySum := frequency, frequencyCount := 1,
              pendingMidi := none, pendingCount := 0 }, none)
  else if s.currentMidi = none then
    (if s.pendingMidi = none then
       { s with pendingMidi := some noteInfo.midiNumber, pendingCount := 1 }
     else s, none)
  else (s, none)

/-- Lines 82-123 of processFrame: the hysteresis machinery for a pitch at
least 2 semitones from the active note (or with no active note). -/
noncomputable def hysteresisStep (s : State) (noteInfo : NoteInfo) (frequency : ℝ)
    (timestamp : ℚ) : State × Option DetectedNote :=
  if s.pendingMidi = some noteInfo.midiNumber then
    let s2 := { s with pendingCount := s.pendingCount + 1 }
    if 5 ≤ s2.pendingCount then
      let fin := finishCurrentNote s2 timestamp
      ({ fin.1 with currentNoteStart := some timestamp,
                    currentMidi := some noteInfo.midiNumber,
                    frequencySum := frequency, frequencyCount := 1,
                    pendingMidi := none, pendingCount := 0 }, fin.2)
    else afterPending s2 noteInfo frequency timestamp
  else
    afterPending { s with pendingMidi := some noteInfo.midiNumber, pendingCount := 1 }
      noteInfo frequency timestamp

/-- processFrame of NoteQuantizer.  The guard
frequency === null || clarity < minClarity is evaluated first: when it
holds the silence path runs, otherwise the pitch path runs with the
(non-null) frequency. -/
noncomputable def processFrame (s : State) (pitchData : PitchData) :
    State × Option DetectedNote :=
  let audible : Option ℝ :=
    match pitchData.frequency with
    | none => none
    | some f => if pitchData.clarity < 1/100 then none else some f
  match audible with
  | none =>
    let s1 := { s with silenceCount := s.silenceCount + 1, pendingMidi := none,
                       pendingCount := 0 }
    if 8 ≤ s1.silenceCount ∧ s1.currentMidi ≠ none then
      finishCurrentNote s1 pitchData.timestamp
    else (s1, none)
  | some frequency =>
    let s1 := { s with silenceCount := 0 }
    let noteInfo := frequencyToNoteInfo frequency
    match s1.currentMidi with
    | some cur =>
      if |noteInfo.midiNumber - cur| ≤ 1 then
        let s2 :=
          if |noteInfo.midiNumber - cur| = 0 then
            { s1 with frequencySum := s1.frequencySum + frequency,
                      frequencyCount := s1.frequencyCount + 1 }
          else s1
        ({ s2 with pendingMidi := none, pendingCount := 0 }, none)
      else hysteresisStep s1 noteInfo frequency pitchData.timestamp
    | none => hysteresisStep s1 noteInfo frequency pitchData.timestamp

/-- flush of NoteQuantizer: force finalization of any active note. -/
noncomputable def flush (s : State) (endTime : ℚ) : State × Option DetectedNote :=
  finishCurrentNote s endTime

/-- Iterated processFrame over a list of frames, collecting every emitted
note in order. -/
noncomputable def run (s : State) : List PitchData → State × List DetectedNote
  | [] => (s, [])
  | pd :: rest =>
    let step := processFrame s pd
    let tailRun := run step.1 rest
    (tailRun.1, step.2.toList ++ tailRun.2)

/-- A full capture session: the frames processed in order, then one flush
when recording stops (audioState.svelte.ts stopRecording). -/
noncomputable def runWithFlush (s : State) (frames : List PitchData) (endTime : ℚ) :
    List DetectedNote :=
  let r := run s frames
  r.2 ++ (flush r.1 endTime).2.toList

end NoteQuantizer

section PitchEvaluation

/-- 440 Hz is exactly MIDI 69 (A4). -/
theorem frequencyToMidi_440 : PitchDetector.frequencyToMidi 440 = 69 := by
  unfold PitchDetector.frequencyToMidi
  norm_num

/-- MIDI 69 maps back to exactly 440 Hz. -/
theorem midiToFrequency_69 : PitchDetector.midiToFrequency 69 = 440 := by
  unfold PitchDetector.midiToFrequency
  norm_num

/-- Spec sanity check (pitch mapping): 440.0 Hz gives letter A, octave 4,
MIDI 69, cents 0. -/
theorem frequencyToNoteInfo_440 :
    NoteQuantizer.frequencyToNoteInfo 440 =
      { note := "A", octave := 4, midiNumber := 69, cents := 0 } := by
  unfold NoteQuantizer.frequencyToNoteInfo
  norm_num [NoteQuantizer.NOTE_NAMES]
  decide

example :
    PitchDetector.detect PitchDetector.init (some 440) 1 0 =
      ({ pitchHistory := [some 440], smoothedFrequency := none, currentMidiNote := none },
       { frequency := none, clarity := 1, timestamp := 0 }) := by
  norm_num [PitchDetector.detect, PitchDetector.init, PitchDetector.getMedianPitch,
    PitchDetector.countConfirmedPitches, PitchDetector.nthPitch, frequencyToMidi_440]

end PitchEvaluation

section ClaimC2

open PitchDetector

/-- Ten frames: five voiced frames at 440 Hz followed by five unvoiced
frames, all with full clarity. -/
noncomputable def c2frames : List (Option ℝ × ℚ × ℚ) :=
  [(some 440, 1, 0), (some 440, 1, 0), (some 440, 1, 0), (some 440, 1, 0), (some 440, 1, 0),
   (none, 1, 0), (none, 1, 0), (none, 1, 0), (none, 1, 0), (none, 1, 0)]

/-- The detector state reached after c2frames: the lock on MIDI 69 was
established on the fifth frame and survives the five null frames because the
median over the history stays 440 and the clarity stays high. -/
noncomputable def c2reached : PitchDetector.State :=
  { pitchHistory := [some 440, some 440, some 440, some 440, some 440,
                     none, none, none, none, none],
    smoothedFrequency := some 440, currentMidiNote := some 69 }

theorem c2reached_reachable : (detectRun init c2frames).1 = c2reached := by
  norm_num [detectRun, detect, init, c2frames, c2reached, getMedianPitch,
    countConfirmedPitches, nthPitch, sortPitches, silenceReset, nullCount,
    List.insertionSort, List.orderedInsert, frequencyToMidi_440, midiToFrequency_69,
    List.reduceOption_nil, List.reduceOption_cons_of_some, List.reduceOption_cons_of_none]

/-- Claim C2 counterexample: an eleventh call (unvoiced, clarity 1) brings
the null count of the recorded history to 6, yet the returned frequency is
still 440 and the lock is kept, because the frame's median candidate is
non-null and its clarity exceeds 0.01. -/
theorem c2_counterexample_statement :
    (detectRun init c2frames).1 = c2reached ∧
    6 ≤ nullCount (detect c2reached none 1 0).1.pitchHistory ∧
    (detect c2reached none 1 0).2.frequency = some 440 ∧
    (detect c2reached none 1 0).1.currentMidiNote = some 69 := by
  refine ⟨c2reached_reachable, ?_, ?_, ?_⟩ <;>
    norm_num [detect, c2reached, getMedianPitch, nthPitch, sortPitches, silenceReset,
      nullCount, List.insertionSort, List.orderedInsert, frequencyToMidi_440,
      List.reduceOption_nil, List.reduceOption_cons_of_some, List.reduceOption_cons_of_none]

theorem silenceReset_clears (s : PitchDetector.State) (history : List (Option ℝ))
    (h : 6 ≤ nullCount history) : silenceReset s history = (none, none) := by
  simp [silenceReset, h]

/-- Claim C2 (amended): whenever at least 6 of the last 12 pitch-history
entries are null after the current frame is recorded AND the current
frame's median candidate is null or its clarity is at most 0.01, the lock
and smoothed frequency are cleared and the returned frequency is null.
(The reset branch only runs when the median/clarity test fails; see the
counterexample for the case where it succeeds.) -/
theorem c2_silence_reset (s : PitchDetector.State) (raw : Option ℝ) (clarity t : ℚ)
    (hn : 6 ≤ nullCount (detect s raw clarity t).1.pitchHistory)
    (hm : getMedianPitch (detect s raw clarity t).1.pitchHistory = none ∨ clarity ≤ 1/100) :
    (detect s raw clarity t).1.smoothedFrequency = none ∧
    (detect s raw clarity t).1.currentMidiNote = none ∧
    (detect s raw clarity t).2.frequency = none := by
  dsimp only [detect] at hn hm ⊢
  refine ⟨?_, ?_, ?_⟩
  all_goals
    split
    · rename_i mf hmf
      split
      · rename_i hc
        rcases hm with hm | hm
        · rw [hmf] at hm
          exact Option.noConfusion hm
        · exact absurd hc (not_lt.mpr hm)
      · rw [silenceReset_clears _ _ hn]
    · rw [silenceReset_clears _ _ hn]

/-- A detector state holding eleven null history entries with an active
lock, about to receive a twelfth silent frame. -/
noncomputable def c2silentState : PitchDetector.State :=
  { pitchHistory := List.replicate 11 none, smoothedFrequency := some 440,
    currentMidiNote := some 69 }

/-- Witness for c2_silence_reset: a detector holding eleven null history
entries receives a twelfth silent frame and is fully cleared. -/
theorem c2_silence_reset_witness :
    (6 ≤ nullCount (detect c2silentState none 0 0).1.pitchHistory) ∧
    (detect c2silentState none 0 0).1.smoothedFrequency = none ∧
    (detect c2silentState none 0 0).1.currentMidiNote = none ∧
    (detect c2silentState none 0 0).2.frequency = none := by
  have hn : 6 ≤ nullCount (detect c2silentState none 0 0).1.pitchHistory := by
    norm_num [detect, c2silentState, nullCount, getMedianPitch, silenceReset,
      List.replicate, List.reduceOption_nil, List.reduceOption_cons_of_none]
  have hm : getMedianPitch (detect c2silentState none 0 0).1.pitchHistory = none ∨
      (0:ℚ) ≤ 1/100 := Or.inr (by norm_num)
  exact ⟨hn, c2_silence_reset c2silentState none 0 0 hn hm⟩

end ClaimC2

/-- A concrete A4 note event used by witnesses and counterexamples. -/
def noteA4 (start dur : ℚ) : DetectedNote :=
  { note := "A", octave := 4, midiNumber := 69, startTime := start, duration := dur,
    frequency := 440 }

section ClaimC3

open TempoQuantizer

theorem quantize_settings_false (s : QuantizationSettings) (notes : List DetectedNote) :
    (quantize s notes false).1 = s := by
  cases notes <;> simp [quantize]

theorem quantize_settings_true (s : QuantizationSettings) (notes : List DetectedNote) :
    (quantize s notes true).1 =
      if notes.isEmpty then s else { s with bpm := detectTempo notes } := by
  cases notes <;> simp [quantize]

/-- Claim C3 counterexample: quantize with auto-detect enabled mutates the
stored BPM, an observable state change (getBpm before: 120, after: 60). -/
theorem c3_counterexample_statement :
    getBpm (quantize DEFAULT_SETTINGS [noteA4 0 1, noteA4 1 1] true).1 = 60 ∧
    getBpm DEFAULT_SETTINGS = 120 ∧ (60:ℚ) ≠ 120 := by
  refine ⟨?_, by norm_num [getBpm, DEFAULT_SETTINGS], by norm_num⟩
  norm_num [getBpm, quantize, noteA4, detectTempo, DEFAULT_SETTINGS, clusterDurations,
    addToClusters, List.insertionSort, List.orderedInsert, round_eq]

/-- Claim C3 (amended): detectTempo and generate are pure functions of their
arguments; quantize with auto-detect disabled leaves the settings unchanged;
quantize with auto-detect enabled updates the stored BPM to
detectTempo(notes) — its only state change — and re-invoking it on the same
input returns the identical result with no further state change; encoding
the same melody and BPM twice yields identical strings. -/
theorem c3_pure_statement :
    (∀ s notes, (quantize s notes false).1 = s) ∧
    (∀ s notes, (quantize s notes true).1 =
      if notes.isEmpty then s else { s with bpm := detectTempo notes }) ∧
    (∀ s notes, quantize (quantize s notes true).1 notes true = quantize s notes true) ∧
    (∀ g notes, AbcGenerator.generate g notes = AbcGenerator.generate g notes) := by
  refine ⟨quantize_settings_false, quantize_settings_true, ?_, fun _ _ => rfl⟩
  intro s notes
  cases notes <;> simp [quantize]

end ClaimC3

section ClaimC8

open AudioState

/-- Claim C8 (amended): AudioState.setBpm never rejects a value: the
TempoQuantizer copy of the BPM is clamped to [40, 240], but detectedBpm
stores the raw value and, when quantized notes exist, the AbcGenerator also
receives the raw (unclamped) value. -/
theorem c8_setbpm_statement (st : AudioState) (b : ℚ) :
    (AudioState.setBpm st b).tempoQuantizer.bpm = max 40 (min 240 b) ∧
    (AudioState.setBpm st b).detectedBpm = b ∧
    (AudioState.setBpm st b).error = st.error ∧
    (0 < st.rawNotes.length ∧ st.quantizeEnabled →
      (AudioState.setBpm st b).abcGenerator.bpm = b) := by
  unfold AudioState.setBpm
  dsimp only
  by_cases h : 0 < st.rawNotes.length ∧ st.quantizeEnabled = true
  · rw [if_pos h]
    exact ⟨by simp [quantize_settings_false, TempoQuantizer.setBpm], rfl, rfl, fun _ => rfl⟩
  · rw [if_neg h]
    exact ⟨by simp [TempoQuantizer.setBpm], rfl, rfl, fun hc => absurd hc h⟩

/-- A concrete AudioState with one raw note and quantization enabled. -/
def c8audio : AudioState :=
  { detectedBpm := 120, quantizeEnabled := true, rawNotes := [noteA4 0 1],
    detectedNotes := [], abcText := "", error := none,
    tempoQuantizer := TempoQuantizer.DEFAULT_SETTINGS, abcGenerator := { bpm := 120 } }

/-- Witness for c8_setbpm_statement at the concrete state and b = 300. -/
theorem c8_setbpm_witness :
    (0 < c8audio.rawNotes.length ∧ c8audio.quantizeEnabled) ∧
    (AudioState.setBpm c8audio 300).tempoQuantizer.bpm = max 40 (min 240 300) ∧
    (AudioState.setBpm c8audio 300).detectedBpm = 300 ∧
    (AudioState.setBpm c8audio 300).abcGenerator.bpm = 300 := by
  have hcond : 0 < c8audio.rawNotes.length ∧ c8audio.quantizeEnabled := by
    simp [c8audio]
  obtain ⟨h1, h2, _, h4⟩ := c8_setbpm_statement c8audio 300
  exact ⟨hcond, h1, h2, h4 hcond⟩

/-- Claim C8 counterexample: setting BPM 300 clamps only the quantizer copy;
the AbcGenerator (used to render the output) receives 300, not
max(40, min(240, 300)) = 240. -/
theorem c8_counterexample_statement :
    (AudioState.setBpm c8audio 300).abcGenerator.bpm = 300 ∧
    max 40 (min 240 (300:ℚ)) = 240 ∧ (300:ℚ) ≠ 240 := by
  refine ⟨?_, by norm_num, by norm_num⟩
  norm_num [AudioState.setBpm, c8audio, AbcGenerator.setBpm]

end ClaimC8

section ClaimC7

open TempoQuantizer

/-- Claim C7: detectTempo returns the fixed default 120 for fewer than 2
notes and when no duration lies in the open interval (0.1s, 2s); otherwise
it returns an integer in [60, 180] (the rounded, octave-corrected, clamped
60/dominant-duration value). -/
theorem c7_detect_tempo_statement :
    (∀ notes : List DetectedNote, notes.length < 2 → detectTempo notes = 120) ∧
    (∀ notes : List DetectedNote, 2 ≤ notes.length →
      (∀ n ∈ notes, ¬(1/10 < n.duration ∧ n.duration < 2)) → detectTempo notes = 120) ∧
    (∀ notes : List DetectedNote, 2 ≤ notes.length →
      (∃ n ∈ notes, 1/10 < n.duration ∧ n.duration < 2) →
      ∃ z : ℤ, detectTempo notes = (z : ℚ) ∧ 60 ≤ z ∧ z ≤ 180) := by
  refine ⟨?_, ?_, ?_⟩
  · intro notes h
    simp [detectTempo, h, DEFAULT_SETTINGS]
  · intro notes hlen hall
    have hfil : (notes.map (fun n => n.duration)).filter
        (fun d => decide (1/10 < d ∧ d < 2)) = [] := by
      rw [List.filter_eq_nil_iff]
      intro d hd
      obtain ⟨n, hn, rfl⟩ := List.mem_map.mp hd
      simpa using hall n hn
    unfold detectTempo
    rw [if_neg (not_lt.mpr hlen)]
    dsimp only
    rw [hfil]
    simp [DEFAULT_SETTINGS]
  · intro notes hlen hex
    obtain ⟨n, hn, hdur⟩ := hex
    have hmem : n.duration ∈ (notes.map (fun n => n.duration)).filter
        (fun d => decide (1/10 < d ∧ d < 2)) := by
      rw [List.mem_filter]
      exact ⟨List.mem_map.mpr ⟨n, hn, rfl⟩, by simpa using hdur⟩
    have hne : ((notes.map (fun n => n.duration)).filter
        (fun d => decide (1/10 < d ∧ d < 2))).length ≠ 0 := by
      intro h0
      rw [List.length_eq_zero] at h0
      rw [h0] at hmem
      exact absurd hmem (List.not_mem_nil _)
    unfold detectTempo
    rw [if_neg (not_lt.mpr hlen)]
    dsimp only
    rw [if_neg hne]
    exact ⟨_, rfl, le_max_left _ _, max_le (by norm_num) (min_le_left _ _)⟩

/-- Witness for c7_detect_tempo_statement: an empty input, an input with
only long durations, and an input with two 1s durations (giving 60 BPM). -/
theorem c7_detect_tempo_witness :
    TempoQuantizer.detectTempo ([] : List DetectedNote) = 120 ∧
    TempoQuantizer.detectTempo [noteA4 0 5, noteA4 5 5] = 120 ∧
    (∃ z : ℤ, TempoQuantizer.detectTempo [noteA4 0 1, noteA4 1 1] = (z : ℚ) ∧
      60 ≤ z ∧ z ≤ 180) := by
  refine ⟨c7_detect_tempo_statement.1 [] (by norm_num),
    c7_detect_tempo_statement.2.1 [noteA4 0 5, noteA4 5 5] (by norm_num) ?_,
    c7_detect_tempo_statement.2.2 [noteA4 0 1, noteA4 1 1] (by norm_num)
      ⟨noteA4 0 1, by norm_num [noteA4], by norm_num [noteA4]⟩⟩
  intro n hn
  simp only [List.mem_cons, List.not_mem_nil, or_false] at hn
  rcases hn with rfl | rfl <;> norm_num [noteA4]

end ClaimC7

section ClaimC9

/-- The correspondence, taken from the spec, between the eighth-unit bucket
and the ABC duration suffix: 1 unit is an implicit eighth (no suffix),
2 units a quarter, 4 units a half, 8 units a whole. -/
def specSuffixOfUnits (u : ℕ) : String :=
  if u = 1 then "" else if u = 2 then "2" else if u = 4 then "4" else "8"

theorem foldl_add_sum (f : α → ℚ) (l : List α) (a : ℚ) :
    l.foldl (fun acc x => acc + f x) a = a + (l.map f).sum := by
  induction l generalizing a with
  | nil => simp
  | cons x xs ih => simp [ih, add_assoc]

/-- Claim C9: the duration-to-bucket conversion of the per-note suffix
(getDurationSuffix), the bar-placement conversion (durationToEighths) and
the playback-duration estimate (getAbcPlaybackDuration) agree: for every
duration and BPM they assign the same bucket, and the playback estimate is
exactly the sum of the per-note durationToEighths buckets scaled back to
seconds. -/
theorem c9_buckets_statement :
    (∀ bpm d : ℚ, AbcGenerator.getDurationSuffix { bpm := bpm } d =
      specSuffixOfUnits (AbcGenerator.durationToEighths { bpm := bpm } d)) ∧
    (∀ (bpm : ℚ) (notes : List DetectedNote),
      PianoRoll.getAbcPlaybackDuration notes bpm =
        (notes.map (fun n =>
          ((AbcGenerator.durationToEighths { bpm := bpm } n.duration : ℕ) : ℚ))).sum *
          (60 / bpm / 2)) := by
  constructor
  · intro bpm d
    unfold AbcGenerator.getDurationSuffix AbcGenerator.durationToEighths
    dsimp only
    split_ifs <;> first | linarith | simp [specSuffixOfUnits]
  · intro bpm notes
    unfold PianoRoll.getAbcPlaybackDuration AbcGenerator.durationToEighths
    dsimp only
    rw [foldl_add_sum (fun note =>
      if note.duration / (60 / bpm / 2) ≤ 3/2 then (1:ℚ)
      else if note.duration / (60 / bpm / 2) ≤ 3 then 2
      else if note.duration / (60 / bpm / 2) ≤ 6 then 4
      else 8) notes 0]
    rw [zero_add]
    congr 1
    congr 1
    apply List.map_congr_left
    intro n _
    split_ifs <;> norm_num

end ClaimC9

section QuantizeLemmas

open TempoQuantizer

/-- The quantized start produced by quantizeNote. -/
def quantStart (g first : ℚ) (n : DetectedNote) : ℚ :=
  ((round ((n.startTime - first) / g) : ℤ) : ℚ) * g

/-- The final duration produced by quantizeNote. -/
def quantDur (g first : ℚ) (n : DetectedNote) (next : Option DetectedNote) : ℚ :=
  let q1 := ((max 1 (round (n.duration / g)) : ℤ) : ℚ) * g
  match next with
  | none => q1
  | some b =>
    let maxDuration := quantStart g first b - quantStart g first n - 1/100
    if 0 < maxDuration ∧ maxDuration < q1 then
      max g (((⌊maxDuration / g⌋ : ℤ) : ℚ) * g)
    else q1

theorem quantizeNote_eq (g first : ℚ) (n : DetectedNote) (next : Option DetectedNote) :
    quantizeNote g first n next =
      { n with startTime := quantStart g first n, duration := quantDur g first n next } := by
  cases next <;> rfl

theorem quantStart_of_mul (g : ℚ) (hg : g ≠ 0) (r : ℤ) (x : DetectedNote)
    (hx : x.startTime = (r : ℚ) * g) : quantStart g 0 x = x.startTime := by
  rw [quantStart, hx, sub_zero, mul_div_cancel_right₀ _ hg, round_intCast]

theorem quantDur_exists_mul (g first : ℚ) (hg : 0 < g) (n : DetectedNote)
    (next : Option DetectedNote) :
    ∃ m : ℤ, 1 ≤ m ∧ quantDur g first n next = (m : ℚ) * g := by
  unfold quantDur
  cases next with
  | none => exact ⟨max 1 (round (n.duration / g)), le_max_left _ _, rfl⟩
  | some b =>
    dsimp only
    split_ifs with hc
    · set k := ⌊(quantStart g first b - quantStart g first n - 1/100) / g⌋ with hk
      rcases le_or_lt 1 k with h1 | h1
      · refine ⟨k, h1, ?_⟩
        rw [max_eq_right]
        calc g = 1 * g := (one_mul g).symm
        _ ≤ (k : ℚ) * g := by
          apply mul_le_mul_of_nonneg_right _ hg.le
          exact_mod_cast h1
      · refine ⟨1, le_refl 1, ?_⟩
        rw [max_eq_left, Int.cast_one, one_mul]
        apply le_trans (mul_nonpos_of_nonpos_of_nonneg _ hg.le) hg.le
        exact_mod_cast Int.lt_add_one_iff.mp h1
    · exact ⟨max 1 (round (n.duration / g)), le_max_left _ _, rfl⟩

theorem quantDur_requant (g first : ℚ) (hg : 0 < g) (a : DetectedNote)
    (next c : Option DetectedNote) :
    quantDur g 0 (quantizeNote g first a next)
        (next.map fun b => quantizeNote g first b c) =
      quantDur g first a next := by
  obtain ⟨m, hm1, hmd⟩ := quantDur_exists_mul g first hg a next
  have hstart : (quantizeNote g first a next).startTime = quantStart g first a := by
    rw [quantizeNote_eq]
  have hdur : (quantizeNote g first a next).duration = quantDur g first a next := by
    rw [quantizeNote_eq]
  have hq2 : ((max 1 (round ((quantizeNote g first a next).duration / g)) : ℤ) : ℚ) * g =
      quantDur g first a next := by
    rw [hdur, hmd, mul_div_cancel_right₀ _ hg.ne', round_intCast,
      max_eq_right hm1]
  have hqs : quantStart g 0 (quantizeNote g first a next) = quantStart g first a := by
    apply quantStart_of_mul g hg.ne' (round ((a.startTime - first) / g))
    rw [hstart, quantStart]
  cases next with
  | none => simpa [quantDur] using hq2
  | some b =>
    have hbstart : quantStart g 0 (quantizeNote g first b c) = quantStart g first b := by
      apply quantStart_of_mul g hg.ne' (round ((b.startTime - first) / g))
      rw [quantizeNote_eq]
      rfl
    rw [show (Option.map (fun x => quantizeNote g first x c) (some b)) =
      some (quantizeNote g first b c) from rfl]
    simp only [quantDur]
    rw [hq2, hqs, hbstart]
    set maxDuration := quantStart g first b - quantStart g first a - 1/100 with hmaxd
    by_cases hc : 0 < maxDuration ∧ maxDuration < ((max 1 (round (a.duration / g)) : ℤ) : ℚ) * g
    · have hd' : quantDur g first a (some b) =
          max g (((⌊maxDuration / g⌋ : ℤ) : ℚ) * g) := by
        simp only [quantDur]
        rw [if_pos hc]
      have hk0 : 0 ≤ ⌊maxDuration / g⌋ := Int.floor_nonneg.mpr (div_pos hc.1 hg).le
      rcases eq_or_lt_of_le hk0 with hk | hk
      · have hdg : quantDur g first a (some b) = g := by
          rw [hd', ← hk, Int.cast_zero, zero_mul, max_eq_left hg.le]
        have hlt : maxDuration < g := by
          have := Int.lt_floor_add_one (maxDuration / g)
          rw [← hk, Int.cast_zero, zero_add] at this
          exact (div_lt_one hg).mp this
        rw [if_pos ⟨hc.1, by rw [hdg]; exact hlt⟩, if_pos hc]
      · have hk1 : 1 ≤ ⌊maxDuration / g⌋ := hk
        have hdg : quantDur g first a (some b) = ((⌊maxDuration / g⌋ : ℤ) : ℚ) * g := by
          rw [hd', max_eq_right]
          calc g = 1 * g := (one_mul g).symm
          _ ≤ ((⌊maxDuration / g⌋ : ℤ) : ℚ) * g := by
            apply mul_le_mul_of_nonneg_right _ hg.le
            exact_mod_cast hk1
        have hle : ((⌊maxDuration / g⌋ : ℤ) : ℚ) * g ≤ maxDuration := by
          rw [← le_div_iff₀ hg]
          exact Int.floor_le _
        have hnc : ¬(0 < maxDuration ∧ maxDuration < quantDur g first a (some b)) := by
          rintro ⟨-, habs⟩
          rw [hdg] at habs
          exact absurd habs (not_lt.mpr hle)
        rw [if_neg hnc, if_pos hc]
        exact hd'
    · have hd0 : quantDur g first a (some b) =
          ((max 1 (round (a.duration / g)) : ℤ) : ℚ) * g := by
        simp only [quantDur]
        rw [if_neg hc]
      rw [hd0]

theorem quantizeNote_requant (g first : ℚ) (hg : 0 < g) (a : DetectedNote)
    (next c : Option DetectedNote) :
    quantizeNote g 0 (quantizeNote g first a next)
        (next.map fun b => quantizeNote g first b c) =
      quantizeNote g first a next := by
  have hqs2 : quantStart g 0 (quantizeNote g first a next) =
      (quantizeNote g first a next).startTime := by
    apply quantStart_of_mul g hg.ne' (round ((a.startTime - first) / g))
    rw [quantizeNote_eq]
    rfl
  have hqd2 : quantDur g 0 (quantizeNote g first a next)
      (next.map fun b => quantizeNote g first b c) =
      (quantizeNote g first a next).duration := by
    rw [quantDur_requant g first hg a next c, quantizeNote_eq]
  rw [quantizeNote_eq g 0, hqs2, hqd2]

theorem mapWithNext_requant (g first : ℚ) (hg : 0 < g) (l : List DetectedNote) :
    mapWithNext (quantizeNote g 0) (mapWithNext (quantizeNote g first) l) =
      mapWithNext (quantizeNote g first) l := by
  induction l with
  | nil => rfl
  | cons a rest ih =>
    cases rest with
    | nil =>
      show [quantizeNote g 0 (quantizeNote g first a none) none] = [quantizeNote g first a none]
      congr 1
      exact quantizeNote_requant g first hg a none none
    | cons b rest2 =>
      simp only [mapWithNext, List.head?_cons] at ih ⊢
      rw [ih]
      congr 1
      exact quantizeNote_requant g first hg a (some b) rest2.head?

end QuantizeLemmas

section ClaimC4

open TempoQuantizer

theorem quantize_false_cons (s : QuantizationSettings) (a : DetectedNote)
    (rest : List DetectedNote) :
    quantize s (a :: rest) false =
      (s, mapWithNext (quantizeNote (gridSize s) a.startTime) (a :: rest)) := rfl

/-- Claim C4: quantization with auto-tempo disabled is idempotent — feeding
the output of quantize back in, with the same positive BPM and subdivision,
returns the identical settings and the byte-identical note list. -/
theorem c4_quantize_idempotent (s : QuantizationSettings) (notes : List DetectedNote)
    (h1 : 0 < s.bpm) (h2 : 0 < s.subdivision) :
    quantize s (quantize s notes false).2 false = quantize s notes false := by
  have hg : 0 < gridSize s := div_pos (div_pos (by norm_num) h1) (div_pos h2 (by norm_num))
  cases notes with
  | nil => rfl
  | cons a rest =>
    rw [quantize_false_cons s a rest]
    dsimp only
    have hz : (quantizeNote (gridSize s) a.startTime a rest.head?).startTime = 0 := by
      rw [quantizeNote_eq]
      show quantStart (gridSize s) a.startTime a = 0
      rw [quantStart, sub_self, zero_div, round_zero, Int.cast_zero, zero_mul]
    have hmap := mapWithNext_requant (gridSize s) a.startTime hg (a :: rest)
    simp only [mapWithNext] at hmap
    rw [show mapWithNext (quantizeNote (gridSize s) a.startTime) (a :: rest) =
      quantizeNote (gridSize s) a.startTime a rest.head? ::
        mapWithNext (quantizeNote (gridSize s) a.startTime) rest from rfl]
    rw [quantize_false_cons s (quantizeNote (gridSize s) a.startTime a rest.head?)
      (mapWithNext (quantizeNote (gridSize s) a.startTime) rest)]
    rw [hz]
    simp only [mapWithNext]
    rw [hmap]

/-- Witness for c4_quantize_idempotent: the default settings (120 BPM,
subdivision 8) and a single note starting at 0.3s lasting 0.6s. -/
theorem c4_quantize_idempotent_witness :
    0 < DEFAULT_SETTINGS.bpm ∧ 0 < DEFAULT_SETTINGS.subdivision ∧
    quantize DEFAULT_SETTINGS
        (quantize DEFAULT_SETTINGS [noteA4 (3/10) (3/5)] false).2 false =
      quantize DEFAULT_SETTINGS [noteA4 (3/10) (3/5)] false := by
  refine ⟨by norm_num [DEFAULT_SETTINGS], by norm_num [DEFAULT_SETTINGS], ?_⟩
  exact c4_quantize_idempotent DEFAULT_SETTINGS [noteA4 (3/10) (3/5)]
    (by norm_num [DEFAULT_SETTINGS]) (by norm_num [DEFAULT_SETTINGS])

end ClaimC4

section ClaimC1

open TempoQuantizer

theorem round_le_round_rat (x y : ℚ) (h : x ≤ y) : round x ≤ round y := by
  rw [round_eq, round_eq]
  exact Int.floor_le_floor (by linarith)

theorem mapWithNext_length (f : α → Option α → β) (l : List α) :
    (mapWithNext f l).length = l.length := by
  induction l with
  | nil => rfl
  | cons a rest ih => simp [mapWithNext, ih]

theorem mapWithNext_getElem (f : α → Option α → β) (l : List α) (i : ℕ)
    (h : i < l.length) (h2 : i < (mapWithNext f l).length) :
    (mapWithNext f l)[i] = f l[i] l[i + 1]? := by
  induction l generalizing i with
  | nil => simp at h
  | cons a rest ih =>
    cases i with
    | zero =>
      show f a rest.head? = f a (a :: rest)[1]?
      congr 1
      cases rest <;> simp
    | succ j =>
      have hj : j < rest.length := by simpa using h
      have hj2 : j < (mapWithNext f rest).length := by rw [mapWithNext_length]; exact hj
      show (mapWithNext f rest)[j] = f (a :: rest)[j + 1] (a :: rest)[j + 2]?
      rw [ih j hj hj2, List.getElem_cons_succ, List.getElem?_cons_succ]

/-- The overlap guard bound: whenever the quantized start of the next note
lies at least one grid unit later and the grid unit exceeds the 0.01s
margin, the capped duration cannot reach past the next quantized start. -/
theorem quantDur_le (g first : ℚ) (hg : 1/100 < g) (x b : DetectedNote)
    (hk : quantStart g first x + g ≤ quantStart g first b) :
    quantStart g first x + quantDur g first x (some b) ≤ quantStart g first b := by
  have hg0 : 0 < g := lt_trans (by norm_num) hg
  have hmd0 : 0 < quantStart g first b - quantStart g first x - 1/100 := by linarith
  simp only [quantDur]
  split_ifs with hc
  · have h1 : g ≤ quantStart g first b - quantStart g first x := by linarith
    have h2a : ((⌊(quantStart g first b - quantStart g first x - 1/100) / g⌋ : ℤ) : ℚ) * g ≤
        quantStart g first b - quantStart g first x - 1/100 := by
      rw [← le_div_iff₀ hg0]
      exact Int.floor_le _
    have h2 : ((⌊(quantStart g first b - quantStart g first x - 1/100) / g⌋ : ℤ) : ℚ) * g ≤
        quantStart g first b - quantStart g first x := by linarith
    have := max_le h1 h2
    linarith
  · push_neg at hc
    have hq1 : ((max 1 (round (x.duration / g)) : ℤ) : ℚ) * g ≤
        quantStart g first b - quantStart g first x - 1/100 := hc hmd0
    linarith

theorem mapWithNext_getElemOpt (f : α → Option α → β) (l : List α) (i : ℕ) :
    (mapWithNext f l)[i]? = (l[i]?).map (fun a => f a l[i + 1]?) := by
  induction l generalizing i with
  | nil => simp [mapWithNext]
  | cons a rest ih =>
    cases i with
    | zero => cases rest <;> simp [mapWithNext]
    | succ j =>
      simp only [mapWithNext, List.getElem?_cons_succ]
      exact ih j

/-- Claim C1 (amended): for adjacent notes of a sorted input whose quantized
starts differ, and a grid unit larger than the 0.01s guard margin, the
quantized output does not overlap: start[i] + duration[i] ≤ start[i+1]
(hence also ≤ start[i+1] + 1e-9).  When two adjacent notes quantize to the
same grid start, the guard is inert and the full quantized duration is
kept, which can overlap — see the counterexample. -/
theorem c1_no_overlap (s : QuantizationSettings) (notes : List DetectedNote) (auto : Bool)
    (i : ℕ) (x y : DetectedNote)
    (hsort : List.Pairwise (fun u v => u.startTime ≤ v.startTime) notes)
    (hg : 1/100 < gridSize (quantize s notes auto).1)
    (hx : ((quantize s notes auto).2)[i]? = some x)
    (hy : ((quantize s notes auto).2)[i + 1]? = some y)
    (hne : x.startTime ≠ y.startTime) :
    x.startTime + x.duration ≤ y.startTime := by
  cases notes with
  | nil => simp [quantize] at hx
  | cons n0 rest =>
    have hout : (quantize s (n0 :: rest) auto).2 =
        mapWithNext (quantizeNote (gridSize (quantize s (n0 :: rest) auto).1) n0.startTime)
          (n0 :: rest) := by
      cases auto <;> rfl
    set g := gridSize (quantize s (n0 :: rest) auto).1 with hgdef
    set first := n0.startTime with hfirst
    have hg0 : 0 < g := lt_trans (by norm_num) hg
    rw [hout, mapWithNext_getElemOpt] at hx hy
    obtain ⟨xi, hxi, hxeq⟩ := Option.map_eq_some'.mp hx
    obtain ⟨yi, hyi, hyeq⟩ := Option.map_eq_some'.mp hy
    rw [hyi] at hxeq
    obtain ⟨hxilt, hxival⟩ := List.getElem?_eq_some.mp hxi
    obtain ⟨hyilt, hyival⟩ := List.getElem?_eq_some.mp hyi
    have hxy : xi.startTime ≤ yi.startTime := by
      rw [List.pairwise_iff_getElem] at hsort
      have h := hsort i (i + 1) hxilt hyilt (Nat.lt_succ_self i)
      rw [hxival, hyival] at h
      exact h
    have hmono : quantStart g first xi ≤ quantStart g first yi := by
      unfold quantStart
      apply mul_le_mul_of_nonneg_right _ hg0.le
      have hdiv : (xi.startTime - first) / g ≤ (yi.startTime - first) / g :=
        (div_le_div_iff_of_pos_right hg0).mpr (sub_le_sub_right hxy first)
      exact_mod_cast round_le_round_rat _ _ hdiv
    have hxs : x.startTime = quantStart g first xi := by
      rw [← hxeq, quantizeNote_eq]
    have hys : y.startTime = quantStart g first yi := by
      rw [← hyeq, quantizeNote_eq]
    have hxd : x.duration = quantDur g first xi (some yi) := by
      rw [← hxeq, quantizeNote_eq]
    have hrne : round ((xi.startTime - first) / g) ≠ round ((yi.startTime - first) / g) := by
      intro hab
      apply hne
      rw [hxs, hys]
      unfold quantStart
      rw [hab]
    have hlt : round ((xi.startTime - first) / g) < round ((yi.startTime - first) / g) := by
      rcases lt_or_eq_of_le (round_le_round_rat _ _
        ((div_le_div_iff_of_pos_right hg0).mpr (sub_le_sub_right hxy first))) with h | h
      · exact h
      · exact absurd h hrne
    have hstep : quantStart g first xi + g ≤ quantStart g first yi := by
      unfold quantStart
      have hcast : ((round ((xi.startTime - first) / g) + 1 : ℤ) : ℚ) * g ≤
          ((round ((yi.startTime - first) / g) : ℤ) : ℚ) * g := by
        apply mul_le_mul_of_nonneg_right _ hg0.le
        exact_mod_cast hlt
      push_cast at hcast
      linarith
    rw [hxs, hxd, hys]
    exact quantDur_le g first hg _ _ hstep

/-- Claim C1 counterexample: two strictly ascending input notes (starts 0
and 0.1s) that quantize to the same grid start at 120 BPM, subdivision 8
(grid 0.25s): the guard is inert (maxDuration = -0.01 < 0) and the first
output note keeps its full 0.25s duration, overlapping the second output
note by far more than 1e-9. -/
theorem c1_counterexample_statement :
    (noteA4 0 (1/4)).startTime < (noteA4 (1/10) (1/4)).startTime ∧
    (TempoQuantizer.quantize TempoQuantizer.DEFAULT_SETTINGS
        [noteA4 0 (1/4), noteA4 (1/10) (1/4)] false).2 =
      [noteA4 0 (1/4), noteA4 0 (1/4)] ∧
    ¬((noteA4 0 (1/4)).startTime + (noteA4 0 (1/4)).duration ≤
        (noteA4 0 (1/4)).startTime + 1/1000000000) := by
  refine ⟨by norm_num [noteA4], ?_, by norm_num [noteA4]⟩
  norm_num [TempoQuantizer.quantize, TempoQuantizer.mapWithNext, TempoQuantizer.quantizeNote,
    TempoQuantizer.gridSize, TempoQuantizer.DEFAULT_SETTINGS, noteA4, round_eq]

/-- Witness for c1_no_overlap: notes at 0s (1s long) and 0.5s (0.25s long)
at 120 BPM, subdivision 8; the guard caps the first duration to 0.25s. -/
theorem c1_no_overlap_witness :
    List.Pairwise (fun u v => u.startTime ≤ v.startTime)
      [noteA4 0 1, noteA4 (1/2) (1/4)] ∧
    1/100 < gridSize (quantize DEFAULT_SETTINGS [noteA4 0 1, noteA4 (1/2) (1/4)] false).1 ∧
    ((quantize DEFAULT_SETTINGS [noteA4 0 1, noteA4 (1/2) (1/4)] false).2)[0]? =
      some (noteA4 0 (1/4)) ∧
    ((quantize DEFAULT_SETTINGS [noteA4 0 1, noteA4 (1/2) (1/4)] false).2)[1]? =
      some (noteA4 (1/2) (1/4)) ∧
    (noteA4 0 (1/4)).startTime ≠ (noteA4 (1/2) (1/4)).startTime ∧
    (noteA4 0 (1/4)).startTime + (noteA4 0 (1/4)).duration ≤
      (noteA4 (1/2) (1/4)).startTime := by
  have h1 : List.Pairwise (fun u v => u.startTime ≤ v.startTime)
      [noteA4 0 1, noteA4 (1/2) (1/4)] := by
    norm_num [noteA4]
  have h2 : 1/100 < gridSize
      (quantize DEFAULT_SETTINGS [noteA4 0 1, noteA4 (1/2) (1/4)] false).1 := by
    norm_num [quantize, gridSize, DEFAULT_SETTINGS]
  have h3 : ((quantize DEFAULT_SETTINGS [noteA4 0 1, noteA4 (1/2) (1/4)] false).2)[0]? =
      some (noteA4 0 (1/4)) := by
    norm_num [quantize, mapWithNext, quantizeNote, gridSize, DEFAULT_SETTINGS, noteA4,
      round_eq, Int.floor_eq_iff]
  have h4 : ((quantize DEFAULT_SETTINGS [noteA4 0 1, noteA4 (1/2) (1/4)] false).2)[1]? =
      some (noteA4 (1/2) (1/4)) := by
    norm_num [quantize, mapWithNext, quantizeNote, gridSize, DEFAULT_SETTINGS, noteA4,
      round_eq, Int.floor_eq_iff]
  have h5 : (noteA4 0 (1/4)).startTime ≠ (noteA4 (1/2) (1/4)).startTime := by
    norm_num [noteA4]
  exact ⟨h1, h2, h3, h4, h5,
    c1_no_overlap DEFAULT_SETTINGS [noteA4 0 1, noteA4 (1/2) (1/4)] false 0
      (noteA4 0 (1/4)) (noteA4 (1/2) (1/4)) h1 h2 h3 h4 h5⟩

end ClaimC1

section ClaimC6

open TempoQuantizer

theorem detectTempo_pos (notes : List DetectedNote) : 0 < detectTempo notes := by
  by_cases hl : notes.length < 2
  · unfold detectTempo
    rw [if_pos hl]
    norm_num [DEFAULT_SETTINGS]
  · by_cases hf : ((notes.map (fun n => n.duration)).filter
        (fun d => decide (1/10 < d ∧ d < 2))).length = 0
    · unfold detectTempo
      rw [if_neg hl]
      dsimp only
      rw [if_pos hf]
      norm_num [DEFAULT_SETTINGS]
    · unfold detectTempo
      rw [if_neg hl]
      dsimp only
      rw [if_neg hf]
      exact_mod_cast lt_of_lt_of_le (by norm_num : (0:ℤ) < 60) (le_max_left _ _)

theorem quantize_fst_bpm_pos (s : QuantizationSettings) (auto : Bool) (n0 : DetectedNote)
    (rest : List DetectedNote) (h1 : 0 < s.bpm) :
    0 < (quantize s (n0 :: rest) auto).1.bpm := by
  cases auto
  · simpa [quantize] using h1
  · simpa [quantize] using detectTempo_pos (n0 :: rest)

theorem quantize_fst_subdivision (s : QuantizationSettings) (auto : Bool) (n0 : DetectedNote)
    (rest : List DetectedNote) :
    (quantize s (n0 :: rest) auto).1.subdivision = s.subdivision := by
  cases auto <;> simp [quantize]

theorem gridSize_quantize_pos (s : QuantizationSettings) (auto : Bool) (n0 : DetectedNote)
    (rest : List DetectedNote) (h1 : 0 < s.bpm) (h2 : 0 < s.subdivision) :
    0 < gridSize (quantize s (n0 :: rest) auto).1 := by
  unfold gridSize
  apply div_pos (div_pos (by norm_num) (quantize_fst_bpm_pos s auto n0 rest h1))
  rw [quantize_fst_subdivision]
  exact div_pos h2 (by norm_num)

/-- Claim C6: on a non-empty input sorted by ascending start time and with
positive BPM and subdivision, both the quantizing path and the
non-quantizing normalization path yield a list sorted by ascending start
time whose first note starts at 0. -/
theorem c6_ordering_statement (s : QuantizationSettings) (notes : List DetectedNote)
    (auto : Bool) (hne : notes ≠ [])
    (hsort : List.Pairwise (fun u v => u.startTime ≤ v.startTime) notes)
    (h1 : 0 < s.bpm) (h2 : 0 < s.subdivision) :
    List.Pairwise (fun u v => u.startTime ≤ v.startTime) (quantize s notes auto).2 ∧
    ((quantize s notes auto).2.head?).map (fun n => n.startTime) = some 0 ∧
    List.Pairwise (fun u v => u.startTime ≤ v.startTime)
      (AudioState.normalizeNoteTimes notes) ∧
    ((AudioState.normalizeNoteTimes notes).head?).map (fun n => n.startTime) = some 0 := by
  cases notes with
  | nil => exact absurd rfl hne
  | cons n0 rest =>
    have hout : (quantize s (n0 :: rest) auto).2 =
        mapWithNext (quantizeNote (gridSize (quantize s (n0 :: rest) auto).1) n0.startTime)
          (n0 :: rest) := by
      cases auto <;> rfl
    set g := gridSize (quantize s (n0 :: rest) auto).1 with hgdef
    have hg0 : 0 < g := gridSize_quantize_pos s auto n0 rest h1 h2
    refine ⟨?_, ?_, ?_, ?_⟩
    · rw [hout, List.pairwise_iff_getElem]
      intro i j hi hj hij
      rw [mapWithNext_length] at hi hj
      rw [mapWithNext_getElem _ _ i hi (by rw [mapWithNext_length]; exact hi),
        mapWithNext_getElem _ _ j hj (by rw [mapWithNext_length]; exact hj),
        quantizeNote_eq, quantizeNote_eq]
      show quantStart g n0.startTime (n0 :: rest)[i] ≤ quantStart g n0.startTime (n0 :: rest)[j]
      have hxy : ((n0 :: rest)[i]).startTime ≤ ((n0 :: rest)[j]).startTime := by
        rw [List.pairwise_iff_getElem] at hsort
        exact hsort i j hi hj hij
      unfold quantStart
      apply mul_le_mul_of_nonneg_right _ hg0.le
      have hdiv : ((n0 :: rest)[i].startTime - n0.startTime) / g ≤
          ((n0 :: rest)[j].startTime - n0.startTime) / g :=
        (div_le_div_iff_of_pos_right hg0).mpr (sub_le_sub_right hxy n0.startTime)
      exact_mod_cast round_le_round_rat _ _ hdiv
    · rw [hout]
      simp only [mapWithNext, List.head?_cons, Option.map_some']
      rw [quantizeNote_eq]
      show some (quantStart g n0.startTime n0) = some 0
      rw [quantStart, sub_self, zero_div, round_zero, Int.cast_zero, zero_mul]
    · unfold AudioState.normalizeNoteTimes
      apply List.Pairwise.map
      · intro a b hab
        exact sub_le_sub_right hab n0.startTime
      · exact hsort
    · simp [AudioState.normalizeNoteTimes]

/-- Witness for c6_ordering_statement: the default settings and two sorted
notes at 0.3s and 0.8s. -/
theorem c6_ordering_witness :
    ([noteA4 (3/10) (2/5), noteA4 (4/5) (2/5)] ≠ ([] : List DetectedNote)) ∧
    List.Pairwise (fun u v => u.startTime ≤ v.startTime)
      [noteA4 (3/10) (2/5), noteA4 (4/5) (2/5)] ∧
    0 < DEFAULT_SETTINGS.bpm ∧ 0 < DEFAULT_SETTINGS.subdivision ∧
    (List.Pairwise (fun u v => u.startTime ≤ v.startTime)
      (quantize DEFAULT_SETTINGS [noteA4 (3/10) (2/5), noteA4 (4/5) (2/5)] false).2 ∧
    ((quantize DEFAULT_SETTINGS [noteA4 (3/10) (2/5), noteA4 (4/5) (2/5)] false).2.head?).map
      (fun n => n.startTime) = some 0 ∧
    List.Pairwise (fun u v => u.startTime ≤ v.startTime)
      (AudioState.normalizeNoteTimes [noteA4 (3/10) (2/5), noteA4 (4/5) (2/5)]) ∧
    ((AudioState.normalizeNoteTimes
        [noteA4 (3/10) (2/5), noteA4 (4/5) (2/5)]).head?).map
      (fun n => n.startTime) = some 0) := by
  refine ⟨by simp, by norm_num [noteA4], by norm_num [DEFAULT_SETTINGS],
    by norm_num [DEFAULT_SETTINGS], ?_⟩
  exact c6_ordering_statement DEFAULT_SETTINGS [noteA4 (3/10) (2/5), noteA4 (4/5) (2/5)]
    false (by simp) (by norm_num [noteA4]) (by norm_num [DEFAULT_SETTINGS])
    (by norm_num [DEFAULT_SETTINGS])

end ClaimC6

section ClaimC5

open NoteQuantizer

theorem finishCurrentNote_min (s : NoteQuantizer.State) (t : ℚ) (n : DetectedNote)
    (h : (finishCurrentNote s t).2 = some n) : 9/50 ≤ n.duration := by
  unfold finishCurrentNote at h
  split at h
  · rename_i start midi hstart hmidi
    by_cases hd : t - start < 9/50
    · rw [if_pos hd] at h
      simp at h
    · rw [if_neg hd] at h
      simp only [Option.some.injEq] at h
      rw [← h]
      exact not_lt.mp hd
  · simp at h

theorem hysteresisStep_emits_finish (s : NoteQuantizer.State) (noteInfo : NoteInfo)
    (frequency : ℝ) (t : ℚ) (n : DetectedNote)
    (h : (hysteresisStep s noteInfo frequency t).2 = some n) :
    ∃ s2 t2, (finishCurrentNote s2 t2).2 = some n := by
  simp only [hysteresisStep, afterPending] at h
  split at h
  · split at h
    · exact ⟨_, _, h⟩
    · split at h
      · simp at h
      · split at h <;> simp at h
  · split at h
    · simp at h
    · split at h <;> simp at h

theorem processFrame_emits_finish (s : NoteQuantizer.State) (pd : PitchData)
    (n : DetectedNote) (h : (processFrame s pd).2 = some n) :
    ∃ s2 t2, (finishCurrentNote s2 t2).2 = some n := by
  simp only [processFrame] at h
  split at h
  · split at h
    · exact ⟨_, _, h⟩
    · simp at h
  · split at h
    · split at h
      · simp at h
      · exact hysteresisStep_emits_finish _ _ _ _ _ h
    · exact hysteresisStep_emits_finish _ _ _ _ _ h

theorem run_min (frames : List PitchData) :
    ∀ (s : NoteQuantizer.State) (n : DetectedNote), n ∈ (run s frames).2 →
      9/50 ≤ n.duration := by
  induction frames with
  | nil =>
    intro s n h
    simp [run] at h
  | cons pd rest ih =>
    intro s n h
    simp only [run, List.mem_append] at h
    rcases h with h | h
    · rw [Option.mem_toList, Option.mem_def] at h
      obtain ⟨s2, t2, hfin⟩ := processFrame_emits_finish s pd n h
      exact finishCurrentNote_min s2 t2 n hfin
    · exact ih _ n h

/-- Claim C5: starting from a reset NoteQuantizer, every note emitted over
any frame sequence followed by a flush has duration at least 0.18s —
shorter candidates are discarded by every finalization trigger. -/
theorem c5_min_duration_statement (frames : List PitchData) (t : ℚ) (n : DetectedNote)
    (h : n ∈ runWithFlush init frames t) : 9/50 ≤ n.duration := by
  unfold runWithFlush at h
  rw [List.mem_append] at h
  rcases h with h | h
  · exact run_min frames init n h
  · rw [Option.mem_toList, Option.mem_def] at h
    exact finishCurrentNote_min _ t n h

/-- Five voiced frames at 440 Hz, 50ms apart. -/
noncomputable def nqDemoFrames : List PitchData :=
  [{ frequency := some 440, clarity := 1, timestamp := 0 },
   { frequency := some 440, clarity := 1, timestamp := 1/20 },
   { frequency := some 440, clarity := 1, timestamp := 1/10 },
   { frequency := some 440, clarity := 1, timestamp := 3/20 },
   { frequency := some 440, clarity := 1, timestamp := 1/5 }]

/-- The segmenter state after nqDemoFrames: an A4 note opened at 0.2s with
one accumulated frequency sample. -/
noncomputable def nqDemoState : NoteQuantizer.State :=
  { currentNoteStart := some (1/5), currentMidi := some 69, frequencySum := 440,
    frequencyCount := 1, pendingMidi := none, pendingCount := 0, silenceCount := 0 }

/-- The note the demo session emits at flush time 0.5s. -/
noncomputable def nqDemoNote : DetectedNote :=
  { note := "A", octave := 4, midiNumber := 69, startTime := 1/5, duration := 3/10,
    frequency := 440 }

theorem frequencyToNoteInfo_440_midi :
    (NoteQuantizer.frequencyToNoteInfo 440).midiNumber = 69 := by
  rw [frequencyToNoteInfo_440]

/-- The segmenter state while the first note candidate (MIDI 69) is pending
with k confirmations. -/
noncomputable def nqPend (k : ℕ) : NoteQuantizer.State :=
  { currentNoteStart := none, currentMidi := none, frequencySum := 0, frequencyCount := 0,
    pendingMidi := some 69, pendingCount := k, silenceCount := 0 }

theorem nqPend_first (t : ℚ) :
    processFrame init { frequency := some 440, clarity := 1, timestamp := t } =
      (nqPend 1, none) := by
  simp only [processFrame, init, hysteresisStep, afterPending, nqPend]
  norm_num [frequencyToNoteInfo_440_midi]

theorem nqPend_step (k : ℕ) (hk : k + 1 < 5) (t : ℚ) :
    processFrame (nqPend k) { frequency := some 440, clarity := 1, timestamp := t } =
      (nqPend (k + 1), none) := by
  have hne : ¬ (5 ≤ k + 1) := by omega
  simp only [processFrame, hysteresisStep, afterPending, nqPend]
  norm_num [frequencyToNoteInfo_440_midi, hne]
  intro h
  cases h

theorem nqPend_confirm (t : ℚ) :
    processFrame (nqPend 4) { frequency := some 440, clarity := 1, timestamp := t } =
      ({ currentNoteStart := some t, currentMidi := some 69, frequencySum := 440,
         frequencyCount := 1, pendingMidi := none, pendingCount := 0,
         silenceCount := 0 }, none) := by
  simp only [processFrame, hysteresisStep, afterPending, finishCurrentNote, resetTracking,
    nqPend]
  norm_num [frequencyToNoteInfo_440_midi]

theorem nqDemoRun : run init nqDemoFrames = (nqDemoState, []) := by
  have h1 := nqPend_first 0
  have h2 := nqPend_step 1 (by omega) (1/20)
  have h3 := nqPend_step 2 (by omega) (1/10)
  have h4 := nqPend_step 3 (by omega) (3/20)
  have h5 := nqPend_confirm (1/5)
  norm_num at h2 h3 h4
  simp only [nqDemoFrames, run]
  rw [h1]
  dsimp only
  rw [h2]
  dsimp only
  rw [h3]
  dsimp only
  rw [h4]
  dsimp only
  rw [h5]
  simp [nqDemoState]

theorem nqDemoFinish :
    (finishCurrentNote nqDemoState (1/2)).2 = some nqDemoNote := by
  simp only [nqDemoState, finishCurrentNote]
  norm_num [resetTracking, nqDemoNote, frequencyToNoteInfo_440]

/-- Witness for c5_min_duration_statement: the demo session emits exactly
one note, 0.3s long. -/
theorem c5_min_duration_witness :
    nqDemoNote ∈ runWithFlush init nqDemoFrames (1/2) ∧ 9/50 ≤ nqDemoNote.duration := by
  have hmem : nqDemoNote ∈ runWithFlush init nqDemoFrames (1/2) := by
    unfold runWithFlush flush
    rw [nqDemoRun]
    dsimp only
    rw [nqDemoFinish]
    simp
  exact ⟨hmem, c5_min_duration_statement nqDemoFrames (1/2) nqDemoNote hmem⟩

end ClaimC5

section ClaimC10

open NoteQuantizer

theorem finishCurrentNote_fst_midi (s : NoteQuantizer.State) (t : ℚ) :
    (finishCurrentNote s t).1.currentMidi = none := by
  unfold finishCurrentNote
  split
  · split <;> (dsimp only; first | rfl | (split <;> rfl))
  · rfl

theorem hysteresisStep_inv (s : NoteQuantizer.State) (noteInfo : NoteInfo)
    (frequency : ℝ) (t : ℚ) (hs : s.currentMidi ≠ none → 1 ≤ s.frequencyCount) :
    (hysteresisStep s noteInfo frequency t).1.currentMidi ≠ none →
      1 ≤ (hysteresisStep s noteInfo frequency t).1.frequencyCount := by
  simp only [hysteresisStep, afterPending]
  split
  · split
    · exact fun _ => le_refl 1
    · split
      · exact fun _ => le_refl 1
      · split
        · split
          · exact fun h => hs h
          · exact fun h => hs h
        · exact fun h => hs h
  · split
    · exact fun _ => le_refl 1
    · split
      · split
        · exact fun h => hs h
        · exact fun h => hs h
      · exact fun h => hs h

theorem processFrame_inv (s : NoteQuantizer.State) (pd : PitchData)
    (hs : s.currentMidi ≠ none → 1 ≤ s.frequencyCount) :
    (processFrame s pd).1.currentMidi ≠ none →
      1 ≤ (processFrame s pd).1.frequencyCount := by
  simp only [processFrame]
  split
  · split
    · intro h
      exact absurd (finishCurrentNote_fst_midi _ _) h
    · exact fun h => hs h
  · split
    · split
      · rename_i cur hcur _
        intro h
        have hbase : 1 ≤ s.frequencyCount := hs (by
          show s.currentMidi ≠ none
          rw [show s.currentMidi = some cur from hcur]
          simp)
        split
        · exact Nat.le_succ_of_le hbase
        · exact hbase
      · exact hysteresisStep_inv _ _ _ _ (fun h => hs h)
    · exact hysteresisStep_inv _ _ _ _ (fun h => hs h)

theorem run_inv (frames : List PitchData) :
    ∀ s : NoteQuantizer.State, (s.currentMidi ≠ none → 1 ≤ s.frequencyCount) →
      ((run s frames).1.currentMidi ≠ none → 1 ≤ (run s frames).1.frequencyCount) := by
  induction frames with
  | nil => exact fun s hs => hs
  | cons pd rest ih =>
    intro s hs
    simp only [run]
    exact ih _ (processFrame_inv s pd hs)

theorem finishCurrentNote_mean (s : NoteQuantizer.State) (t : ℚ) (n : DetectedNote)
    (hinv : s.currentMidi ≠ none → 1 ≤ s.frequencyCount)
    (h : (finishCurrentNote s t).2 = some n) :
    1 ≤ s.frequencyCount ∧ n.frequency = s.frequencySum / (s.frequencyCount : ℝ) := by
  unfold finishCurrentNote at h
  split at h
  · rename_i start midi hstart hmidi
    have hcount : 1 ≤ s.frequencyCount := hinv (by rw [hmidi]; simp)
    refine ⟨hcount, ?_⟩
    rw [if_pos (by omega : 0 < s.frequencyCount)] at h
    by_cases hd : t - start < 9/50
    · rw [if_pos hd] at h
      simp at h
    · rw [if_neg hd] at h
      simp only [Option.some.injEq] at h
      rw [← h]
  · simp at h

/-- Claim C10: starting from a reset NoteQuantizer, whenever a note is
active the frequency accumulator holds at least one sample, so
finishCurrentNote never takes its equal-tempered fallback branch: every
note it emits carries the arithmetic mean frequencySum / frequencyCount. -/
theorem c10_accumulator_statement (frames : List PitchData) :
    ((run init frames).1.currentMidi ≠ none →
      1 ≤ (run init frames).1.frequencyCount) ∧
    (∀ (t : ℚ) (n : DetectedNote),
      (finishCurrentNote (run init frames).1 t).2 = some n →
      1 ≤ (run init frames).1.frequencyCount ∧
      n.frequency = (run init frames).1.frequencySum /
        ((run init frames).1.frequencyCount : ℝ)) := by
  have hinv := run_inv frames init (by intro h; simp [init] at h)
  exact ⟨hinv, fun t n h => finishCurrentNote_mean _ t n hinv h⟩

/-- Witness for c10_accumulator_statement: after the demo frames a note is
active with exactly one accumulated sample, and the flush emits the mean
frequency 440. -/
theorem c10_accumulator_witness :
    (run init nqDemoFrames).1.currentMidi ≠ none ∧
    1 ≤ (run init nqDemoFrames).1.frequencyCount ∧
    (finishCurrentNote (run init nqDemoFrames).1 (1/2)).2 = some nqDemoNote ∧
    nqDemoNote.frequency = (run init nqDemoFrames).1.frequencySum /
      ((run init nqDemoFrames).1.frequencyCount : ℝ) := by
  have hmid : (run init nqDemoFrames).1.currentMidi ≠ none := by
    rw [nqDemoRun]
    simp [nqDemoState]
  have hfin : (finishCurrentNote (run init nqDemoFrames).1 (1/2)).2 = some nqDemoNote := by
    rw [nqDemoRun]
    exact nqDemoFinish
  obtain ⟨hc, hm⟩ := (c10_accumulator_statement nqDemoFrames).2 (1/2) nqDemoNote hfin
  exact ⟨hmid, (c10_accumulator_statement nqDemoFrames).1 hmid, hfin, hm⟩

end ClaimC10
